import Mathlib

/-!
# Verification of the multimodal input arbitration subsystem

Shallow embedding of the gesture-confirmation engine (`vision_handler.py`),
the voice-activity segmenter (`audio_handler.py`) and the turn-taking
coordination of the web layer (`web_app.py`), together with proofs of the
spec's testable properties.

Time is modelled by `ℚ` (the code uses `time.time()` floats only for
comparisons and subtractions, which are exact here).  Callback invocations
and emitted events are recorded in explicit trace fields so that the
observable behaviour of the threaded code becomes a value of the state.
-/

namespace Transneft

/-! ## Gesture Confirmation Engine (`vision_handler.py`) -/

/-- Configuration values read from `config.py` by `VisionConfig`. -/
structure VisionCfg where
  real_time_analysis : Bool
  gesture_confirmation_time : ℚ
  gesture_inactivity_timeout : ℚ
deriving DecidableEq, Repr

/-- The values of `config.py` relevant to the gesture engine:
`REAL_TIME_ANALYSIS = True`, `GESTURE_CONFIRMATION_TIME = 1.5`,
`GESTURE_INACTIVITY_TIMEOUT = 7.0`. -/
def defaultVisionCfg : VisionCfg :=
  { real_time_analysis := true
    gesture_confirmation_time := 3 / 2
    gesture_inactivity_timeout := 7 }

/-- One entry of `VisionHandler.gesture_buffer`: the `'type'` field of the
gesture dict together with the `'detected_at'` stamp added by
`_frame_analysis_callback`.  The remaining dict fields (hand side,
confidence, landmarks) are never read by the confirmation logic. -/
structure GestureObs where
  gtype : String
  detected_at : ℚ
deriving DecidableEq, Repr

/-- One entry of `VisionHandler.analysis_results` (the `frame_shape` is an
opaque camera value never inspected afterwards and is omitted). -/
structure AnalysisEntry where
  timestamp : ℚ
  gestures : List String
deriving DecidableEq, Repr

/-- One invocation of the confirmation callback; the callback receives the
mapped text, and we also record the confirmed label that produced it. -/
structure ConfirmedGesture where
  label : String
  text : String
deriving DecidableEq, Repr

/-- The mutable state of `VisionHandler` (plus the camera's `is_recording`
flag, and the trace of confirmation-callback invocations). -/
structure VisionState where
  is_vision_active : Bool
  is_paused : Bool
  last_gesture_time : ℚ
  last_confirmed_gesture : Option String
  gesture_buffer : List GestureObs
  current_gestures : List String
  analysis_results : List AnalysisEntry
  camera_available : Bool
  camera_recording : Bool
  confirmed_events : List ConfirmedGesture
deriving DecidableEq, Repr

/-- The dict `gesture_counts` built by `_check_gesture_confirmation`:
counts per type, in first-insertion order (Python dicts preserve it). -/
def gestureCounts (buf : List GestureObs) : List (String × Nat) :=
  buf.foldl
    (fun acc g =>
      if acc.any (fun p => p.1 = g.gtype) then
        acc.map (fun p => if p.1 = g.gtype then (p.1, p.2 + 1) else p)
      else acc ++ [(g.gtype, 1)])
    []

/-- `max(gesture_counts, key=gesture_counts.get)`: Python's `max` keeps the
first element and replaces it only on a strictly greater key. -/
def argmaxFirst (counts : List (String × Nat)) : Option (String × Nat) :=
  counts.foldl
    (fun acc p =>
      match acc with
      | none => some p
      | some q => if p.2 > q.2 then some p else some q)
    none

/-- The static `gesture_text_map` of `_check_gesture_confirmation`. -/
def gesture_text_map : String → Option String
  | "open_palm" => some "Привет"
  | "victory" => some "Победа"
  | "thumb_up" => some "Супер"
  | "pointing_up" => some "Внимание"
  | _ => none

/-- `VisionHandler._check_gesture_confirmation` (vision_handler.py:400-441). -/
def check_gesture_confirmation (s : VisionState) : VisionState :=
  if s.gesture_buffer = [] then s
  else
    match argmaxFirst (gestureCounts s.gesture_buffer) with
    | none => s
    | some (label, count) =>
      if count ≥ 3 ∧ s.last_confirmed_gesture ≠ some label then
        match gesture_text_map label with
        | some text =>
          { s with
            last_confirmed_gesture := some label
            confirmed_events := s.confirmed_events ++ [⟨label, text⟩]
            gesture_buffer := [] }
        | none => s
      else s

/-- `VisionHandler.stop_real_time_analysis` (vision_handler.py:496-506):
clears the activity flags and stops the camera capture loop. -/
def stop_real_time_analysis (s : VisionState) : VisionState :=
  { s with is_vision_active := false, is_paused := false, camera_recording := false }

/-- `VisionHandler.pause_analysis` (vision_handler.py:481-484). -/
def pause_analysis (s : VisionState) : VisionState :=
  { s with is_paused := true }

/-- `VisionHandler.resume_analysis` (vision_handler.py:486-494), invoked at
time `t`: only acts when analysis is active; resets the inactivity timer and
clears the buffer.  (It does not touch `last_confirmed_gesture`.) -/
def resume_analysis (s : VisionState) (t : ℚ) : VisionState :=
  if s.is_vision_active then
    { s with is_paused := false, last_gesture_time := t, gesture_buffer := [] }
  else s

/-- `VisionHandler.start_real_time_analysis` (vision_handler.py:443-479),
success path at time `t`; returns the state unchanged on the failure paths
(real-time analysis disabled, camera unavailable). -/
def start_real_time_analysis (cfg : VisionCfg) (s : VisionState) (t : ℚ) : VisionState :=
  if ¬ cfg.real_time_analysis then s
  else if ¬ s.camera_available then s
  else
    { s with
      gesture_buffer := []
      last_gesture_time := t
      last_confirmed_gesture := none
      is_vision_active := true
      camera_recording := true }

/-- `VisionHandler._frame_analysis_callback` (vision_handler.py:508-569) at
time `t`; `gestures` are the types detected for this frame by the external
classifier (empty when detection is rate-limited, disabled or found
nothing). -/
def frame_analysis_callback (cfg : VisionCfg) (s : VisionState) (t : ℚ)
    (gestures : List String) : VisionState :=
  if s.is_paused then s
  else if t - s.last_gesture_time > cfg.gesture_inactivity_timeout then
    stop_real_time_analysis s
  else
    let s1 := { s with current_gestures := gestures }
    if gestures = [] then s1
    else
      let s2 :=
        { s1 with
          last_gesture_time := t
          gesture_buffer :=
            (s1.gesture_buffer ++ gestures.map (fun g => ({ gtype := g, detected_at := t } : GestureObs))).filter
              (fun g => t - g.detected_at ≤ cfg.gesture_confirmation_time) }
      let s3 := check_gesture_confirmation s2
      let s4 := { s3 with analysis_results := s3.analysis_results ++ [⟨t, gestures⟩] }
      if s4.analysis_results.length > 20 then
        { s4 with analysis_results := s4.analysis_results.drop 1 }
      else s4

/-- The camera capture loop (`CameraHandler._capture_loop`) delivering a
sequence of analyzed frames to `_frame_analysis_callback`; it stops as soon
as `is_recording` is cleared (which `stop_real_time_analysis` does). -/
def vision_run (cfg : VisionCfg) (s : VisionState) :
    List (ℚ × List String) → VisionState
  | [] => s
  | (t, gs) :: rest =>
    if s.camera_recording then
      vision_run cfg (frame_analysis_callback cfg s t gs) rest
    else s

/-- `chat` in `web_app.py:72-76`: before generating, pause gesture analysis
when it is active and unpaused, remembering whether a resume is owed. -/
def beginGeneration (s : VisionState) : VisionState × Bool :=
  let gesture_was_active := s.is_vision_active && !s.is_paused
  (if gesture_was_active then pause_analysis s else s, gesture_was_active)

/-- `chat` in `web_app.py:112-116`: in the `finally` block, resume gesture
analysis (at time `t`) when a resume is owed. -/
def endGeneration (s : VisionState) (gesture_was_active : Bool) (t : ℚ) : VisionState :=
  if gesture_was_active then resume_analysis s t else s

/-! ### Concrete gesture-engine states used in counterexamples and witnesses -/

/-- A reachable state in which three `closed_fist` observations fill the
buffer and nothing has been confirmed yet. -/
def fistBufferState : VisionState :=
  { is_vision_active := true
    is_paused := false
    last_gesture_time := 1
    last_confirmed_gesture := none
    gesture_buffer := [⟨"closed_fist", 1⟩, ⟨"closed_fist", 1⟩, ⟨"closed_fist", 1⟩]
    current_gestures := []
    analysis_results := []
    camera_available := true
    camera_recording := true
    confirmed_events := [] }

/-- A reachable state in which `open_palm` was just confirmed and is still
held in view. -/
def heldPalmState : VisionState :=
  { fistBufferState with
    last_confirmed_gesture := some "open_palm"
    gesture_buffer := [⟨"open_palm", 1⟩] }

/-- A reachable state with three `open_palm` observations buffered and a
different gesture confirmed last. -/
def palmStreakState : VisionState :=
  { fistBufferState with
    last_confirmed_gesture := some "victory"
    gesture_buffer := [⟨"open_palm", 1⟩, ⟨"open_palm", 1⟩, ⟨"open_palm", 1⟩] }

/-- An idle state with empty buffer and history. -/
def freshVisionState : VisionState :=
  { fistBufferState with gesture_buffer := [] }

/-- No two adjacent confirmation events carry the same label. -/
def NoAdjacentDup (es : List ConfirmedGesture) : Prop :=
  List.Chain' (fun a b => a.label ≠ b.label) es

/-- The debounce invariant: the event trace has no adjacent duplicate and,
when nonempty, its last label is exactly `last_confirmed_gesture`. -/
def DebounceInv (s : VisionState) : Prop :=
  NoAdjacentDup s.confirmed_events ∧
  ∀ e, s.confirmed_events.getLast? = some e → s.last_confirmed_gesture = some e.label

/-! ## Voice Activity Segmenter (`audio_handler.py`) -/

/-- The thresholds of `AudioHandler.__init__` (audio_handler.py:390-393),
read from `config.py`. -/
structure AudioCfg where
  volume_threshold : ℚ
  silence_threshold : ℚ
  inactivity_timeout : ℚ
deriving DecidableEq, Repr

/-- The values of `config.py`: `VOICE_VOLUME_THRESHOLD = 500`,
`SILENCE_THRESHOLD = 2.0`, `INACTIVITY_TIMEOUT = 5.0`. -/
def defaultAudioCfg : AudioCfg :=
  { volume_threshold := 500, silence_threshold := 2, inactivity_timeout := 5 }

/-- One chunk read from the audio stream: its capture instant and its
16-bit PCM samples. -/
structure AudioFrame where
  time : ℚ
  samples : List ℤ
deriving DecidableEq, Repr

/-- `np.abs(audio_array).mean()` (audio_handler.py:495-496): the mean
absolute amplitude of a frame. -/
def volume (f : AudioFrame) : ℚ :=
  if f.samples = [] then 0
  else ((f.samples.map (fun s => (s.natAbs : ℚ))).sum) / (f.samples.length : ℚ)

/-- Outcome of one call of the external speech recognizer
(`recognizer.recognize_google`): a text, or one of the exceptions it may
raise (`sr.UnknownValueError`, `sr.RequestError`, anything else). -/
inductive RecognitionResult
  | ok (text : String)
  | unknownValue
  | requestError
  | otherError
deriving DecidableEq, Repr

/-- A Python exception escaping a function. -/
inductive PyExc
  | generic
deriving DecidableEq, Repr

/-- The mutable state of `AudioHandler` relevant to a listening session
(plus trace fields recording the session's observable output events). -/
structure AudioState where
  is_listening : Bool
  audio_frames : List AudioFrame
  last_speech_time : ℚ
  /-- `audio_stream` is not `None` and open. -/
  stream_open : Bool
  /-- `pyaudio_instance` is not `None`. -/
  pyaudio_active : Bool
  /-- Trace: the buffers handed to `_process_recorded_audio` by the
  recording worker (one entry per emission of the accumulated segment). -/
  processCalls : List (List AudioFrame)
  /-- Trace: the segments that passed the minimum-length guard and reached
  the recognition collaborator. -/
  emitted : List (List AudioFrame)
  /-- Trace: the texts delivered to `_on_text_recognized`. -/
  recognized : List String
  /-- Trace: the session status events ("stopped"). -/
  statuses : List String
deriving DecidableEq, Repr

/-- `AudioHandler.stop_listening` (audio_handler.py:599-625): a no-op when
not listening; otherwise clears the flag, stops and closes the stream,
terminates PyAudio and reports the stop. -/
def stop_listening (s : AudioState) : AudioState × Option String :=
  if ¬ s.is_listening then (s, none)
  else
    ({ s with
        is_listening := false
        stream_open := false
        pyaudio_active := false
        statuses := s.statuses ++ ["stopped"] },
      some "Запись остановлена")

/-- `AudioHandler._process_recorded_audio` (audio_handler.py:550-591) with
the recognizer's outcome `out` for the current buffer.  Short buffers
(fewer than 10 frames, roughly 0.25 s) are discarded before the recognizer
is invoked.  `sr.UnknownValueError` and `sr.RequestError` are caught by the
inner handlers, every other exception by the outer `except Exception`; the
function therefore never lets an exception escape. -/
def process_recorded_audio (out : RecognitionResult) (s : AudioState) :
    Except PyExc AudioState :=
  if s.audio_frames.length < 10 then Except.ok s
  else
    let s1 := { s with emitted := s.emitted ++ [s.audio_frames] }
    let inner : Except PyExc AudioState :=
      match out with
      | RecognitionResult.ok text =>
        Except.ok (if text ≠ "" then { s1 with recognized := s1.recognized ++ [text] } else s1)
      | RecognitionResult.unknownValue => Except.ok s1
      | RecognitionResult.requestError => Except.ok s1
      | RecognitionResult.otherError => Except.error PyExc.generic
    match inner with
    | Except.ok s2 => Except.ok s2
    | Except.error _ => Except.ok s1

/-- The state of `recording_worker` (audio_handler.py:481-537): the handler
state plus the worker's local variables `has_speech` and `silence_start`. -/
structure WorkerState where
  audio : AudioState
  has_speech : Bool
  silence_start : Option ℚ
deriving DecidableEq, Repr

/-- Python truthiness of the `silence_start` float-or-None variable: the
guard `if silence_start:` is false for `None` and for `0.0`. -/
def truthy : Option ℚ → Bool
  | none => false
  | some x => decide (x ≠ 0)

/-- The value held by `silence_start` when set (0 when unset). -/
def optVal : Option ℚ → ℚ
  | none => 0
  | some x => x

/-- The value `silence_start` holds after the
`if has_speech and silence_start is None` assignment on a silent frame at
time `t` (audio_handler.py:507-508). -/
def effSilenceStart (w : WorkerState) (t : ℚ) : Option ℚ :=
  if w.has_speech && w.silence_start.isNone then some t else w.silence_start

/-- The tail of one `recording_worker` iteration at frame time `t`
(audio_handler.py:525-529): the inactivity-timeout check, which stops the
session and breaks the loop when more than `inactivity_timeout` has passed
since the last speech. -/
def worker_tail (cfg : AudioCfg) (t : ℚ) (a : AudioState) (hs : Bool) (ss : Option ℚ) :
    WorkerState × Bool :=
  if t - a.last_speech_time > cfg.inactivity_timeout then
    ({ audio := (stop_listening a).1, has_speech := hs, silence_start := ss }, true)
  else ({ audio := a, has_speech := hs, silence_start := ss }, false)

/-- One iteration of `recording_worker` (audio_handler.py:488-535) on frame
`f`: append the frame, classify it by volume, emit the segment on confirmed
silence, then check the inactivity timeout.  `recog` is the external
recognizer's outcome for a given buffer.  The returned flag is true when
the iteration executed `break` (inactivity stop, or an exception reaching
the worker's own handler). -/
def worker_step (cfg : AudioCfg) (recog : List AudioFrame → RecognitionResult)
    (w : WorkerState) (f : AudioFrame) : WorkerState × Bool :=
  let a0 := { w.audio with audio_frames := w.audio.audio_frames ++ [f] }
  if volume f > cfg.volume_threshold then
    worker_tail cfg f.time { a0 with last_speech_time := f.time } true none
  else
    let ss0 := effSilenceStart w f.time
    if truthy ss0 then
      if f.time - optVal ss0 ≥ cfg.silence_threshold ∧ w.has_speech then
        let a1 := { a0 with processCalls := a0.processCalls ++ [a0.audio_frames] }
        match process_recorded_audio (recog a0.audio_frames) a1 with
        | Except.ok aP =>
          worker_tail cfg f.time { aP with audio_frames := [], last_speech_time := f.time }
            false none
        | Except.error _ =>
          ({ audio := a1, has_speech := w.has_speech, silence_start := ss0 }, true)
      else worker_tail cfg f.time a0 w.has_speech ss0
    else worker_tail cfg f.time a0 w.has_speech ss0

/-- The `while self.is_listening` loop of `recording_worker` over a
sequence of captured frames; a `break` ends the loop. -/
def worker_run (cfg : AudioCfg) (recog : List AudioFrame → RecognitionResult) :
    WorkerState → List AudioFrame → WorkerState
  | w, [] => w
  | w, f :: fs =>
    if w.audio.is_listening then
      match worker_step cfg recog w f with
      | (w', true) => w'
      | (w', false) => worker_run cfg recog w' fs
    else w

/-- The session state right after the success path of
`AudioHandler.start_listening` (audio_handler.py:458-541) at time `t0`:
listening, empty buffer, fresh `last_speech_time`, stream open, PyAudio
alive, and the worker's locals `silence_start = None`, `has_speech =
False`. -/
def initListening (t0 : ℚ) : WorkerState :=
  { audio :=
      { is_listening := true
        audio_frames := []
        last_speech_time := t0
        stream_open := true
        pyaudio_active := true
        processCalls := []
        emitted := []
        recognized := []
        statuses := [] }
    has_speech := false
    silence_start := none }

/-- Is the recognizer outcome one of the failure cases? -/
def RecognitionResult.isFailure : RecognitionResult → Bool
  | RecognitionResult.ok _ => false
  | _ => true

/-! ### Definitions for the emission characterization (claim C4) -/

/-- A frame louder than the volume threshold (speech). -/
def loud (cfg : AudioCfg) (f : AudioFrame) : Bool :=
  decide (volume f > cfg.volume_threshold)

/-- The buffer `l` has a nonempty suffix of consecutive silent frames
starting at position `i`, whose first frame was captured at time `a`. -/
def SilentSuffixFrom (cfg : AudioCfg) (l : List AudioFrame) (a : ℚ) : Prop :=
  ∃ i, i < l.length ∧ (∀ g ∈ l[i]?, g.time = a) ∧ ∀ g ∈ l.drop i, loud cfg g = false

/-- A well-formed emitted segment: it contains a frame that exceeded the
volume threshold, and it ends in a run of consecutive silent frames that
spans at least `silence_threshold` up to the emitting frame (the last frame
of the segment). -/
def SegOK (cfg : AudioCfg) (seg : List AudioFrame) : Prop :=
  (∃ g ∈ seg, loud cfg g = true) ∧
  ∃ i, i < seg.length ∧
    (∀ g ∈ seg.drop i, loud cfg g = false) ∧
    ∀ s ∈ seg[i]?, ∀ gl ∈ seg.getLast?, gl.time - s.time ≥ cfg.silence_threshold

/-- The core invariant of the recording worker over the quadruple
(accumulated frames, `has_speech`, `silence_start`, emitted buffers):
`has_speech` is exactly "some buffered frame exceeded the threshold", a set
`silence_start` marks the start of the silent suffix of the buffer (and
implies speech was heard), and every emitted buffer so far was
well-formed. -/
def WorkerInvCore (cfg : AudioCfg) (frames : List AudioFrame) (hs : Bool)
    (ss : Option ℚ) (pc : List (List AudioFrame)) : Prop :=
  (hs = frames.any (fun g => loud cfg g)) ∧
  (∀ a ∈ ss, SilentSuffixFrom cfg frames a ∧ hs = true) ∧
  ∀ seg ∈ pc, SegOK cfg seg

/-- The worker invariant on a full worker state. -/
def WorkerInv (cfg : AudioCfg) (w : WorkerState) : Prop :=
  WorkerInvCore cfg w.audio.audio_frames w.has_speech w.silence_start
    w.audio.processCalls

/-! ### Concrete audio scenario (claim C2) -/

/-- A silent frame (all samples 0) at time `t`. -/
def silentFrame (t : ℚ) : AudioFrame := { time := t, samples := [0, 0] }

/-- A speech frame (constant amplitude 1000) at time `t`. -/
def loudFrame (t : ℚ) : AudioFrame := { time := t, samples := [1000, 1000] }

/-- The frame stream of the spec's scenario, at 4 frames per second
starting at `t = 1`: amplitude 0 for 3 s (12 frames, t = 1 … 3.75), then
amplitude 1000 for 1 s (4 frames, t = 4 … 4.75), then amplitude 0 for
2.5 s (10 frames, t = 5 … 7.25). -/
def scenarioFrames : List AudioFrame :=
  ((List.range 12).map fun i => silentFrame (1 + (i : ℚ) / 4)) ++
    ((List.range 4).map fun i => loudFrame (4 + (i : ℚ) / 4)) ++
    ((List.range 10).map fun i => silentFrame (5 + (i : ℚ) / 4))

/-- A recognizer that always succeeds, for scenario runs in which the
recognition outcome is irrelevant. -/
def demoRecog : List AudioFrame → RecognitionResult :=
  fun _ => RecognitionResult.ok "Привет"

/-- A listening state holding a 10-frame segment about to be processed. -/
def failSegState : AudioState :=
  { (initListening 1).audio with
    audio_frames :=
      (List.range 8).map (fun i => loudFrame (1 + (i : ℚ) / 4)) ++
        [silentFrame 3, silentFrame (13 / 4)] }

/-! ### Lemmas about the confirmation check -/

/-- The confirmation check never touches the analysis history. -/
theorem check_gesture_confirmation_analysis (s : VisionState) :
    (check_gesture_confirmation s).analysis_results = s.analysis_results := by
  unfold check_gesture_confirmation
  repeat' split
  all_goals rfl

/-! ### Claim C1 -/

/-- Claim C1, counterexample: a buffer whose majority type `closed_fist`
has count `3 ≥ 3` and differs from `last_confirmed_gesture`, yet
`_check_gesture_confirmation` produces no ConfirmedGesture at all — the
label is missing from the static lookup table, so the callback is not
invoked, `last_confirmed_gesture` stays unset and the buffer is not
cleared. -/
theorem unmapped_majority_not_confirmed :
    argmaxFirst (gestureCounts fistBufferState.gesture_buffer) = some ("closed_fist", 3) ∧
    fistBufferState.last_confirmed_gesture ≠ some "closed_fist" ∧
    check_gesture_confirmation fistBufferState = fistBufferState := by
  refine ⟨by decide, by decide, by decide⟩

/-- Claim C1 (amended): when the most frequent buffered type reaches count
`≥ 3`, differs from `last_confirmed_gesture` **and is one of the four
labels of the static lookup table**, the confirmation check maps it to its
fixed text, invokes the confirmation callback with that text, sets
`last_confirmed_gesture` to the label, and clears the entire buffer. -/
theorem check_confirms_mapped_majority (s : VisionState) (label : String) (count : ℕ)
    (text : String)
    (hmax : argmaxFirst (gestureCounts s.gesture_buffer) = some (label, count))
    (hcount : 3 ≤ count)
    (hdiff : s.last_confirmed_gesture ≠ some label)
    (hmap : gesture_text_map label = some text) :
    check_gesture_confirmation s =
      { s with
        last_confirmed_gesture := some label
        confirmed_events := s.confirmed_events ++ [⟨label, text⟩]
        gesture_buffer := [] } := by
  have hne : s.gesture_buffer ≠ [] := by
    intro h
    rw [h] at hmax
    simp [gestureCounts, argmaxFirst] at hmax
  unfold check_gesture_confirmation
  rw [if_neg hne, hmax]
  dsimp only
  rw [if_pos ⟨hcount, hdiff⟩, hmap]

/-- Witness for C1's amended theorem at a concrete input: three buffered
`open_palm` observations with a different previous confirmation. -/
theorem check_confirms_mapped_majority_witness :
    check_gesture_confirmation palmStreakState =
      { palmStreakState with
        last_confirmed_gesture := some "open_palm"
        confirmed_events := palmStreakState.confirmed_events ++ [⟨"open_palm", "Привет"⟩]
        gesture_buffer := [] } :=
  check_confirms_mapped_majority palmStreakState "open_palm" 3 "Привет"
    (by decide) (by decide) (by decide) (by decide)

/-! ### Claim C3 -/

/-- Claim C3, counterexample: after `pause()` then `resume()`,
`last_confirmed_gesture` is **not** cleared to none (it still holds
`open_palm`), and a held `open_palm` streak fed immediately after resuming
is never confirmed again. -/
theorem resume_keeps_last_confirmed_counterexample :
    (resume_analysis (pause_analysis heldPalmState) 10).last_confirmed_gesture
        = some "open_palm" ∧
    (resume_analysis (pause_analysis heldPalmState) 10).last_confirmed_gesture ≠ none ∧
    (vision_run defaultVisionCfg (resume_analysis (pause_analysis heldPalmState) 10)
        [(10, ["open_palm"]), (21 / 2, ["open_palm"]), (11, ["open_palm"])]).confirmed_events
      = [] := by
  refine ⟨by decide, by decide, by with_unfolding_all decide⟩

/-- Claim C3 (amended): `resume()` after `pause()` re-arms intake
(`is_paused := false`), resets the inactivity timer to the resume instant
and empties the gesture buffer, but leaves `last_confirmed_gesture`
unchanged — so a gesture held through the pause can only be confirmed again
if its label differs from the last confirmed one. -/
theorem resume_after_pause_resets_all_but_last_confirmed (s : VisionState) (t : ℚ)
    (h : s.is_vision_active = true) :
    resume_analysis (pause_analysis s) t =
      { s with is_paused := false, last_gesture_time := t, gesture_buffer := [] } := by
  simp [resume_analysis, pause_analysis, h]

/-- Witness for C3's amended theorem at a concrete input. -/
theorem resume_after_pause_resets_all_but_last_confirmed_witness :
    resume_analysis (pause_analysis heldPalmState) 10 =
      { heldPalmState with is_paused := false, last_gesture_time := 10, gesture_buffer := [] } :=
  resume_after_pause_resets_all_but_last_confirmed heldPalmState 10 (by decide)

/-! ### Claim C7 -/

/-- Claim C7: `beginGeneration` (pausing gesture analysis when a chat
request starts) and `endGeneration` (resuming at a fixed instant `t` when
the response finishes) are each idempotent: a second consecutive invocation
leaves the engine state — `is_paused`, `gesture_buffer`,
`last_gesture_time`, `last_confirmed_gesture` and all other fields —
exactly as after the first. -/
theorem begin_end_generation_idempotent :
    (∀ s : VisionState, (beginGeneration (beginGeneration s).1).1 = (beginGeneration s).1) ∧
    ∀ (s : VisionState) (owed : Bool) (t : ℚ),
      endGeneration (endGeneration s owed t) owed t = endGeneration s owed t := by
  constructor
  · intro s
    cases hA : s.is_vision_active <;> cases hP : s.is_paused <;>
      simp [beginGeneration, pause_analysis, hA, hP]
  · intro s owed t
    cases owed with
    | false => simp [endGeneration]
    | true =>
      cases hA : s.is_vision_active <;>
        simp [endGeneration, resume_analysis, hA]

/-! ### Claim C9 -/

/-- Claim C9: while the engine is paused, `_frame_analysis_callback`
returns before the inactivity check — the state is left completely
untouched no matter how late the frame arrives — so the gesture inactivity
timeout can never stop real-time analysis during a pause; and the
inactivity clock restarts only when `resume_analysis` resets
`last_gesture_time` to the resume instant. -/
theorem paused_callback_never_stops_analysis :
    (∀ (cfg : VisionCfg) (s : VisionState) (t : ℚ) (gs : List String),
        s.is_paused = true → frame_analysis_callback cfg s t gs = s) ∧
    ∀ (s : VisionState) (t : ℚ),
      s.is_vision_active = true → (resume_analysis s t).last_gesture_time = t := by
  constructor
  · intro cfg s t gs h
    simp [frame_analysis_callback, h]
  · intro s t h
    simp [resume_analysis, h]

/-- Witness for C9 at a concrete input: a frame arriving 99 seconds into a
pause (far past the 7-second timeout) changes nothing, and resuming at
time 9 resets the inactivity clock to 9. -/
theorem paused_callback_never_stops_analysis_witness :
    frame_analysis_callback defaultVisionCfg (pause_analysis fistBufferState) 100 ["open_palm"]
        = pause_analysis fistBufferState ∧
    (resume_analysis fistBufferState 9).last_gesture_time = 9 :=
  ⟨paused_callback_never_stops_analysis.1 defaultVisionCfg (pause_analysis fistBufferState)
      100 ["open_palm"] (by decide),
    paused_callback_never_stops_analysis.2 fistBufferState 9 (by decide)⟩

/-! ### Claim C10 -/

/-- One callback invocation keeps the analysis history at 20 entries or
fewer: the append is immediately followed by `pop(0)` when it overflows. -/
theorem frame_analysis_callback_history_le (cfg : VisionCfg) (s : VisionState) (t : ℚ)
    (gs : List String) (h : s.analysis_results.length ≤ 20) :
    (frame_analysis_callback cfg s t gs).analysis_results.length ≤ 20 := by
  unfold frame_analysis_callback
  split
  · exact h
  split
  · simpa [stop_real_time_analysis] using h
  · dsimp only
    split
    · exact h
    · have hchk := check_gesture_confirmation_analysis
        { s with
          current_gestures := gs
          last_gesture_time := t
          gesture_buffer :=
            (s.gesture_buffer ++ gs.map (fun g => ({ gtype := g, detected_at := t } : GestureObs))).filter
              (fun g => t - g.detected_at ≤ cfg.gesture_confirmation_time) }
      split <;> simp_all

/-- Claim C10: starting from any history of at most 20 entries (the handler
starts empty), every run of the capture loop leaves `analysis_results` with
at most 20 entries, so `get_recent_analysis` never draws from an unbounded
list. -/
theorem analysis_history_bounded (cfg : VisionCfg) (s : VisionState)
    (inputs : List (ℚ × List String)) (h : s.analysis_results.length ≤ 20) :
    (vision_run cfg s inputs).analysis_results.length ≤ 20 := by
  induction inputs generalizing s with
  | nil => exact h
  | cons p rest ih =>
    obtain ⟨t, gs⟩ := p
    unfold vision_run
    split
    · exact ih _ (frame_analysis_callback_history_le cfg s t gs h)
    · exact h

/-- Witness for C10 at a concrete input. -/
theorem analysis_history_bounded_witness :
    (vision_run defaultVisionCfg fistBufferState
        [(1, ["open_palm"]), (2, ["victory"])]).analysis_results.length ≤ 20 :=
  analysis_history_bounded defaultVisionCfg fistBufferState
    [(1, ["open_palm"]), (2, ["victory"])] (by decide)

/-! ### Claim C6 -/

theorem debounce_inv_of_eq {s s' : VisionState}
    (he : s'.confirmed_events = s.confirmed_events)
    (hl : s'.last_confirmed_gesture = s.last_confirmed_gesture)
    (h : DebounceInv s) : DebounceInv s' := by
  unfold DebounceInv NoAdjacentDup at *
  rw [he, hl]
  exact h

theorem check_gesture_confirmation_debounce (s : VisionState) (h : DebounceInv s) :
    DebounceInv (check_gesture_confirmation s) := by
  unfold check_gesture_confirmation
  split
  · exact h
  split
  · exact h
  rename_i label count _
  split
  · rename_i hcond
    split
    · rename_i text _
      constructor
      · unfold NoAdjacentDup
        rw [List.chain'_append]
        refine ⟨h.1, List.chain'_singleton _, ?_⟩
        intro x hx y hy
        simp only [List.head?_cons, Option.mem_def, Option.some.injEq] at hy
        subst hy
        have := h.2 x (by simpa using hx)
        intro hxy
        apply hcond.2
        rw [this, hxy]
      · intro e he
        simp only [List.getLast?_append, List.getLast?_singleton] at he
        cases he
        rfl
    · exact h
  · exact h

theorem frame_analysis_callback_debounce (cfg : VisionCfg) (s : VisionState) (t : ℚ)
    (gs : List String) (h : DebounceInv s) :
    DebounceInv (frame_analysis_callback cfg s t gs) := by
  unfold frame_analysis_callback
  split
  · exact h
  split
  · exact debounce_inv_of_eq (s := s) rfl rfl h
  · dsimp only
    split
    · exact debounce_inv_of_eq (s := s) rfl rfl h
    · have h2 : DebounceInv
          { s with
            current_gestures := gs
            last_gesture_time := t
            gesture_buffer :=
              (s.gesture_buffer ++ gs.map (fun g => ({ gtype := g, detected_at := t } : GestureObs))).filter
                (fun g => t - g.detected_at ≤ cfg.gesture_confirmation_time) } :=
        debounce_inv_of_eq (s := s) rfl rfl h
      have h3 := check_gesture_confirmation_debounce _ h2
      split <;> exact debounce_inv_of_eq (s := _) rfl rfl h3

theorem vision_run_debounce (cfg : VisionCfg) (s : VisionState)
    (inputs : List (ℚ × List String)) (h : DebounceInv s) :
    DebounceInv (vision_run cfg s inputs) := by
  induction inputs generalizing s with
  | nil => exact h
  | cons p rest ih =>
    obtain ⟨t, gs⟩ := p
    unfold vision_run
    split
    · exact ih _ (frame_analysis_callback_debounce cfg s t gs h)
    · exact h

/-- Claim C6: in every run of the gesture engine between a start and the
next `resume()` call — i.e. any sequence of frame-callback invocations
following `start_real_time_analysis` — no two consecutive ConfirmedGestures
carry the same label: each confirmation requires the majority label to
differ from `last_confirmed_gesture`, which is updated at every
confirmation. -/
theorem confirmed_gestures_no_adjacent_duplicate (cfg : VisionCfg) (s : VisionState)
    (t0 : ℚ) (inputs : List (ℚ × List String)) (h : s.confirmed_events = []) :
    List.Chain' (fun a b => a.label ≠ b.label)
      (vision_run cfg (start_real_time_analysis cfg s t0) inputs).confirmed_events := by
  have hstart : DebounceInv (start_real_time_analysis cfg s t0) := by
    unfold start_real_time_analysis
    have hnil : ∀ s' : VisionState, s'.confirmed_events = [] → DebounceInv s' := by
      intro s' h'
      unfold DebounceInv NoAdjacentDup
      rw [h']
      exact ⟨List.chain'_nil, by intro e he; simp at he⟩
    split
    · exact hnil s h
    split
    · exact hnil s h
    · exact hnil _ (by simpa using h)
  exact (vision_run_debounce cfg _ inputs hstart).1

/-- Witness for C6 at a concrete input: a run confirming `open_palm` and
then `victory` yields two events with distinct adjacent labels. -/
theorem confirmed_gestures_no_adjacent_duplicate_witness :
    List.Chain' (fun a b => a.label ≠ b.label)
      (vision_run defaultVisionCfg
        (start_real_time_analysis defaultVisionCfg freshVisionState 1)
        [(1, ["open_palm"]), (5 / 4, ["open_palm"]), (3 / 2, ["open_palm"]),
          (2, ["victory"]), (9 / 4, ["victory"]), (5 / 2, ["victory"])]).confirmed_events :=
  confirmed_gestures_no_adjacent_duplicate defaultVisionCfg freshVisionState 1
    [(1, ["open_palm"]), (5 / 4, ["open_palm"]), (3 / 2, ["open_palm"]),
      (2, ["victory"]), (9 / 4, ["victory"]), (5 / 2, ["victory"])] (by decide)

/-! ### Claim C2 -/

set_option maxRecDepth 8000

/-- Claim C2, counterexample: in the spec's scenario (silence for 3 s,
amplitude 1000 for 1 s against threshold 500, silence for 2.5 s) exactly
one segment is handed to recognition — but it does **not** cover only the
1 s of speech: it is the entire 25-frame buffer accumulated since the
session started, beginning with the 12 leading-silence frames (its first
frame is the silent frame captured at t = 1, before any speech), because
the worker appends every frame to the buffer regardless of speech state
and clears it only at emission. -/
theorem segment_includes_leading_silence :
    (worker_run defaultAudioCfg demoRecog (initListening 1) scenarioFrames).audio.processCalls
        = [scenarioFrames.take 25] ∧
    (scenarioFrames.take 25).head? = some (silentFrame 1) ∧
    loud defaultAudioCfg (silentFrame 1) = false ∧
    (∀ g ∈ (scenarioFrames.take 25).take 12, loud defaultAudioCfg g = false) ∧
    (scenarioFrames.take 25).length = 25 := by
  with_unfolding_all decide

/-- Claim C2 (amended): in the scenario, exactly one SpeechSegment is
emitted (both handed to `_process_recorded_audio` and, having passed the
10-frame artifact filter, to the recognizer); the segment consists of all
frames recorded since the session started — the 3 s of leading silence,
the 1 s of speech and the trailing silence up to confirmation at t = 7 —
the session remains Listening afterward because `last_speech_time` is
refreshed to the emission instant, and no emission arises from the initial
or trailing silence alone. -/
theorem scenario_single_emission :
    (worker_run defaultAudioCfg demoRecog (initListening 1) scenarioFrames).audio.processCalls
        = [scenarioFrames.take 25] ∧
    (worker_run defaultAudioCfg demoRecog (initListening 1) scenarioFrames).audio.emitted
        = [scenarioFrames.take 25] ∧
    (worker_run defaultAudioCfg demoRecog (initListening 1) scenarioFrames).audio.is_listening
        = true ∧
    (worker_run defaultAudioCfg demoRecog (initListening 1) scenarioFrames).audio.statuses
        = [] ∧
    (worker_run defaultAudioCfg demoRecog (initListening 1) scenarioFrames).audio.last_speech_time
        = 7 := by
  with_unfolding_all decide

/-! ### Claim C5 -/

/-- `stop_listening` leaves `last_speech_time` unchanged. -/
theorem stop_listening_last_speech_time (a : AudioState) :
    (stop_listening a).1.last_speech_time = a.last_speech_time := by
  unfold stop_listening
  split
  all_goals rfl

/-- When the inactivity tail breaks the loop, the inactivity timeout had
elapsed relative to the (unchanged) `last_speech_time` of the resulting
state. -/
theorem worker_tail_break_eq (cfg : AudioCfg) (t : ℚ) (a : AudioState) (hs : Bool)
    (ss : Option ℚ) (w' : WorkerState) (h : worker_tail cfg t a hs ss = (w', true)) :
    t - w'.audio.last_speech_time > cfg.inactivity_timeout := by
  unfold worker_tail at h
  revert h
  split
  · rename_i hgt
    intro h
    injection h with h1 h2
    subst h1
    simpa [stop_listening_last_speech_time] using hgt
  · intro h
    injection h with h1 h2
    simp at h2

/-- When the inactivity tail does not break the loop, the state passes
through unchanged. -/
theorem worker_tail_no_break_eq (cfg : AudioCfg) (t : ℚ) (a : AudioState) (hs : Bool)
    (ss : Option ℚ) (w' : WorkerState) (h : worker_tail cfg t a hs ss = (w', false)) :
    w' = { audio := a, has_speech := hs, silence_start := ss } := by
  unfold worker_tail at h
  revert h
  split
  · intro h
    injection h with h1 h2
    simp at h2
  · intro h
    injection h with h1 h2
    exact h1.symm

/-- On an all-silent frame stream, a fresh-format worker state (no speech
heard, timer at `t0`, no status yet) reaches the stopped state exactly once
as soon as a frame falls beyond the inactivity timeout. -/
theorem worker_silent_timeout_aux (cfg : AudioCfg)
    (recog : List AudioFrame → RecognitionResult) (t0 : ℚ) :
    ∀ (fs : List AudioFrame) (w : WorkerState),
      w.audio.is_listening = true → w.has_speech = false → w.silence_start = none →
      w.audio.last_speech_time = t0 → w.audio.statuses = [] →
      w.audio.stream_open = true → w.audio.pyaudio_active = true →
      (∀ f ∈ fs, loud cfg f = false) →
      (∃ f ∈ fs, f.time - t0 > cfg.inactivity_timeout) →
      (worker_run cfg recog w fs).audio.is_listening = false ∧
      (worker_run cfg recog w fs).audio.stream_open = false ∧
      (worker_run cfg recog w fs).audio.pyaudio_active = false ∧
      (worker_run cfg recog w fs).audio.statuses = ["stopped"] := by
  intro fs
  induction fs with
  | nil =>
    intro w _ _ _ _ _ _ _ _ hex
    simp at hex
  | cons f fs ih =>
    intro w hl hhs hss hlst hst hso hpy hsilent hex
    have hloudf : loud cfg f = false := hsilent f (by simp)
    have hvol : ¬ volume f > cfg.volume_threshold := by
      simpa [loud] using hloudf
    unfold worker_run
    rw [if_pos hl]
    unfold worker_step
    rw [if_neg hvol]
    have hss0 : effSilenceStart w f.time = none := by
      simp [effSilenceStart, hhs, hss]
    rw [hss0]
    simp only [truthy, Bool.false_eq_true, if_false]
    unfold worker_tail
    simp only [hlst]
    by_cases htrig : f.time - t0 > cfg.inactivity_timeout
    · rw [if_pos htrig]
      simp only
      unfold stop_listening
      simp [hl, hst]
    · rw [if_neg htrig]
      simp only
      apply ih
      · exact hl
      · exact hhs
      · rfl
      · rfl
      · exact hst
      · exact hso
      · exact hpy
      · intro g hg
        exact hsilent g (by simp [hg])
      · obtain ⟨g, hg, hgt⟩ := hex
        rcases List.mem_cons.mp hg with hg | hg
        · exact absurd (hg ▸ hgt) htrig
        · exact ⟨g, hg, hgt⟩

/-- Claim C5: if after a listening session starts no frame exceeds
`volume_threshold` and some frame arrives more than `inactivity_timeout`
after session start, the session stops exactly once — `is_listening`
becomes false, the audio stream is stopped and closed, the PyAudio
instance is terminated, and exactly one "stopped" status is produced
(the loop breaks, so no second stop transition occurs); moreover
`stop_listening` on an already-stopped session is a guarded no-op. -/
theorem silent_session_stops_exactly_once :
    (∀ (cfg : AudioCfg) (recog : List AudioFrame → RecognitionResult) (t0 : ℚ)
        (fs : List AudioFrame),
      (∀ f ∈ fs, loud cfg f = false) →
      (∃ f ∈ fs, f.time - t0 > cfg.inactivity_timeout) →
      (worker_run cfg recog (initListening t0) fs).audio.is_listening = false ∧
      (worker_run cfg recog (initListening t0) fs).audio.stream_open = false ∧
      (worker_run cfg recog (initListening t0) fs).audio.pyaudio_active = false ∧
      (worker_run cfg recog (initListening t0) fs).audio.statuses = ["stopped"]) ∧
    ∀ a : AudioState, a.is_listening = false → stop_listening a = (a, none) := by
  constructor
  · intro cfg recog t0 fs hsilent hex
    exact worker_silent_timeout_aux cfg recog t0 fs (initListening t0)
      rfl rfl rfl rfl rfl rfl rfl hsilent hex
  · intro a ha
    unfold stop_listening
    simp [ha]

/-- Witness for C5 at a concrete input: a single silent frame at t = 7
against a session started at t = 1 (timeout 5 s) stops the session, and
stopping an already-stopped state is a no-op. -/
theorem silent_session_stops_exactly_once_witness :
    ((worker_run defaultAudioCfg demoRecog (initListening 1) [silentFrame 7]).audio.is_listening
        = false ∧
      (worker_run defaultAudioCfg demoRecog (initListening 1) [silentFrame 7]).audio.stream_open
        = false ∧
      (worker_run defaultAudioCfg demoRecog (initListening 1)
          [silentFrame 7]).audio.pyaudio_active = false ∧
      (worker_run defaultAudioCfg demoRecog (initListening 1) [silentFrame 7]).audio.statuses
        = ["stopped"]) ∧
    stop_listening { (initListening 1).audio with is_listening := false }
      = ({ (initListening 1).audio with is_listening := false }, none) :=
  ⟨silent_session_stops_exactly_once.1 defaultAudioCfg demoRecog 1 [silentFrame 7]
      (by with_unfolding_all decide) (by with_unfolding_all decide),
    silent_session_stops_exactly_once.2 _ rfl⟩

/-! ### Claim C8 -/

/-- `_process_recorded_audio` never lets an exception escape, and never
touches `is_listening` or the status trace. -/
theorem process_recorded_audio_ok (out : RecognitionResult) (a : AudioState) :
    ∃ a', process_recorded_audio out a = Except.ok a' ∧
      a'.is_listening = a.is_listening ∧ a'.statuses = a.statuses := by
  unfold process_recorded_audio
  split
  · exact ⟨a, rfl, rfl, rfl⟩
  · cases out
    case ok text =>
      simp only
      split
      · exact ⟨_, rfl, rfl, rfl⟩
      · exact ⟨_, rfl, rfl, rfl⟩
    all_goals exact ⟨_, rfl, rfl, rfl⟩

/-- Claim C8: recognition-collaborator failures are contained per segment.
`_process_recorded_audio` never lets an exception escape and never touches
`is_listening`; on any failing outcome (unrecognized speech, service
error, any other exception) the segment is discarded without delivering a
text; a worker iteration breaks the capture loop only when the inactivity
timeout has elapsed — never because of the recognition outcome — and when
it does not break, the session is still listening. -/
theorem recognition_failures_contained :
    (∀ (out : RecognitionResult) (a : AudioState),
      ∃ a', process_recorded_audio out a = Except.ok a' ∧
        a'.is_listening = a.is_listening ∧ a'.statuses = a.statuses) ∧
    (∀ (out : RecognitionResult) (a a' : AudioState), out.isFailure = true →
      process_recorded_audio out a = Except.ok a' → a'.recognized = a.recognized) ∧
    (∀ (cfg : AudioCfg) (recog : List AudioFrame → RecognitionResult)
        (w : WorkerState) (f : AudioFrame) (w' : WorkerState),
      worker_step cfg recog w f = (w', true) →
      f.time - w'.audio.last_speech_time > cfg.inactivity_timeout) ∧
    ∀ (cfg : AudioCfg) (recog : List AudioFrame → RecognitionResult)
        (w : WorkerState) (f : AudioFrame) (w' : WorkerState),
      w.audio.is_listening = true → worker_step cfg recog w f = (w', false) →
      w'.audio.is_listening = true := by
  refine ⟨process_recorded_audio_ok, ?_, ?_, ?_⟩
  · intro out a a' hfail heq
    unfold process_recorded_audio at heq
    split at heq
    · cases heq
      rfl
    · cases out with
      | ok text => simp [RecognitionResult.isFailure] at hfail
      | unknownValue => cases heq; rfl
      | requestError => cases heq; rfl
      | otherError => cases heq; rfl
  · intro cfg recog w f w' h
    unfold worker_step at h
    revert h
    split
    · exact fun h => worker_tail_break_eq _ _ _ _ _ _ h
    · dsimp only
      split
      · split
        · split
          · exact fun h => worker_tail_break_eq _ _ _ _ _ _ h
          · rename_i heq
            intro h
            obtain ⟨a', ha', _⟩ := process_recorded_audio_ok
              (recog (w.audio.audio_frames ++ [f]))
              { w.audio with
                audio_frames := w.audio.audio_frames ++ [f]
                processCalls := w.audio.processCalls ++ [w.audio.audio_frames ++ [f]] }
            rw [ha'] at heq
            cases heq
        · exact fun h => worker_tail_break_eq _ _ _ _ _ _ h
      · exact fun h => worker_tail_break_eq _ _ _ _ _ _ h
  · intro cfg recog w f w' hl h
    unfold worker_step at h
    revert h
    split
    · intro h
      have := worker_tail_no_break_eq _ _ _ _ _ _ h
      subst this
      simpa using hl
    · dsimp only
      split
      · split
        · split
          · rename_i aP heq
            intro h
            have hw := worker_tail_no_break_eq _ _ _ _ _ _ h
            subst hw
            obtain ⟨a', ha', hlis, _⟩ := process_recorded_audio_ok
              (recog (w.audio.audio_frames ++ [f]))
              { w.audio with
                audio_frames := w.audio.audio_frames ++ [f]
                processCalls := w.audio.processCalls ++ [w.audio.audio_frames ++ [f]] }
            rw [ha'] at heq
            cases heq
            simpa using hlis.trans hl
          · intro h
            injection h with h1 h2
            simp at h2
        · intro h
          have := worker_tail_no_break_eq _ _ _ _ _ _ h
          subst this
          simpa using hl
      · intro h
        have := worker_tail_no_break_eq _ _ _ _ _ _ h
        subst this
        simpa using hl


/-- Witness for C8 at a concrete input: an unrecognized-speech outcome on a
concrete 10-frame segment keeps the delivered-text trace unchanged, and a
silent frame at t = 7 with the inactivity timeout elapsed is the only way a
concrete iteration breaks. -/
theorem recognition_failures_contained_witness :
    ({ failSegState with
        emitted := failSegState.emitted ++ [failSegState.audio_frames] } : AudioState).recognized
        = failSegState.recognized ∧
    (7 : ℚ) - (worker_step defaultAudioCfg demoRecog (initListening 1)
        (silentFrame 7)).1.audio.last_speech_time > defaultAudioCfg.inactivity_timeout :=
  ⟨recognition_failures_contained.2.1 RecognitionResult.unknownValue failSegState _
      (by decide) (by with_unfolding_all rfl),
    by
      have h := recognition_failures_contained.2.2.1 defaultAudioCfg demoRecog
        (initListening 1) (silentFrame 7)
        (worker_step defaultAudioCfg demoRecog (initListening 1) (silentFrame 7)).1
        (by with_unfolding_all rfl)
      simpa [silentFrame] using h⟩

/-! ### Claim C4 -/

/-- `_process_recorded_audio` succeeds and leaves the frame buffer and the
emission trace untouched. -/
theorem process_recorded_audio_fields (out : RecognitionResult) (a : AudioState) :
    ∃ a', process_recorded_audio out a = Except.ok a' ∧
      a'.audio_frames = a.audio_frames ∧ a'.processCalls = a.processCalls := by
  unfold process_recorded_audio
  split
  · exact ⟨a, rfl, rfl, rfl⟩
  · cases out
    case ok text =>
      simp only
      split
      · exact ⟨_, rfl, rfl, rfl⟩
      · exact ⟨_, rfl, rfl, rfl⟩
    all_goals exact ⟨_, rfl, rfl, rfl⟩

/-- The inactivity tail changes neither the buffer, the emission trace, nor
the worker's local flags. -/
theorem worker_tail_fields (cfg : AudioCfg) (t : ℚ) (a : AudioState) (hs : Bool)
    (ss : Option ℚ) :
    (worker_tail cfg t a hs ss).1.audio.audio_frames = a.audio_frames ∧
    (worker_tail cfg t a hs ss).1.audio.processCalls = a.processCalls ∧
    (worker_tail cfg t a hs ss).1.has_speech = hs ∧
    (worker_tail cfg t a hs ss).1.silence_start = ss := by
  unfold worker_tail stop_listening
  split
  · split
    · exact ⟨rfl, rfl, rfl, rfl⟩
    · exact ⟨rfl, rfl, rfl, rfl⟩
  · exact ⟨rfl, rfl, rfl, rfl⟩

/-- Transport of the core invariant through the inactivity tail. -/
theorem worker_tail_inv (cfg : AudioCfg) (t : ℚ) (a : AudioState) (hs : Bool)
    (ss : Option ℚ) (h : WorkerInvCore cfg a.audio_frames hs ss a.processCalls) :
    WorkerInv cfg (worker_tail cfg t a hs ss).1 := by
  obtain ⟨hf, hp, hh, hss⟩ := worker_tail_fields cfg t a hs ss
  unfold WorkerInv
  rw [hf, hp, hh, hss]
  exact h

/-- Appending a silent frame preserves a silent suffix. -/
theorem silentSuffixFrom_append (cfg : AudioCfg) (l : List AudioFrame) (a : ℚ)
    (f : AudioFrame) (h : SilentSuffixFrom cfg l a) (hf : loud cfg f = false) :
    SilentSuffixFrom cfg (l ++ [f]) a := by
  obtain ⟨i, hi, htime, hall⟩ := h
  refine ⟨i, by simp; omega, ?_, ?_⟩
  · intro g hg
    rw [List.getElem?_append_left hi] at hg
    exact htime g hg
  · intro g hg
    rw [List.drop_append_of_le_length (Nat.le_of_lt hi)] at hg
    rcases List.mem_append.mp hg with h | h
    · exact hall g h
    · rw [List.mem_singleton.mp h]
      exact hf

/-- A freshly appended silent frame is itself a silent suffix starting at
its own capture time. -/
theorem silentSuffixFrom_concat (cfg : AudioCfg) (l : List AudioFrame)
    (f : AudioFrame) (hf : loud cfg f = false) :
    SilentSuffixFrom cfg (l ++ [f]) f.time := by
  refine ⟨l.length, by simp, ?_, ?_⟩
  · intro g hg
    rw [List.getElem?_concat_length] at hg
    cases hg
    rfl
  · intro g hg
    rw [List.drop_append_of_le_length (Nat.le_refl _), List.drop_length,
      List.nil_append] at hg
    rw [List.mem_singleton.mp hg]
    exact hf

/-- A well-formed segment from a silent suffix whose start is old enough
relative to the closing frame. -/
theorem segOK_of_suffix (cfg : AudioCfg) (seg : List AudioFrame) (a : ℚ)
    (hl : ∃ g ∈ seg, loud cfg g = true)
    (hsuf : SilentSuffixFrom cfg seg a)
    (hdur : ∀ gl ∈ seg.getLast?, gl.time - a ≥ cfg.silence_threshold) :
    SegOK cfg seg := by
  obtain ⟨i, hi, htime, hall⟩ := hsuf
  refine ⟨hl, i, hi, hall, ?_⟩
  intro s hs gl hgl
  rw [htime s hs]
  exact hdur gl hgl

/-- A silent, non-emitting frame preserves the core invariant of the
worker (the frame joins the buffer and may open the silent suffix). -/
theorem workerInvCore_silent (cfg : AudioCfg) (w : WorkerState) (f : AudioFrame)
    (h : WorkerInv cfg w) (hfl : loud cfg f = false) :
    WorkerInvCore cfg (w.audio.audio_frames ++ [f]) w.has_speech
      (effSilenceStart w f.time) w.audio.processCalls := by
  obtain ⟨h1, h2, h3⟩ := h
  refine ⟨?_, ?_, h3⟩
  · rw [List.any_append, h1]
    simp [hfl]
  · intro a ha
    by_cases hcase : (w.has_speech && w.silence_start.isNone) = true
    · simp only [effSilenceStart, hcase, if_true] at ha
      have haf : f.time = a := by simpa using ha
      subst haf
      have hparts := hcase
      simp only [Bool.and_eq_true] at hparts
      exact ⟨silentSuffixFrom_concat cfg _ f hfl, hparts.1⟩
    · have hss0 : effSilenceStart w f.time = w.silence_start := by
        simp [effSilenceStart, hcase]
      rw [hss0] at ha
      obtain ⟨hsuf, hhs⟩ := h2 a ha
      exact ⟨silentSuffixFrom_append cfg _ a f hsuf hfl, hhs⟩

/-- One worker iteration preserves the worker invariant. -/
theorem worker_step_inv (cfg : AudioCfg) (recog : List AudioFrame → RecognitionResult)
    (w : WorkerState) (f : AudioFrame) (h : WorkerInv cfg w) :
    WorkerInv cfg (worker_step cfg recog w f).1 := by
  have hinv := h
  obtain ⟨h1, h2, h3⟩ := h
  unfold worker_step
  dsimp only
  split
  · rename_i hloud
    apply worker_tail_inv
    refine ⟨?_, ?_, h3⟩
    · simp [loud, hloud]
    · intro a ha
      simp at ha
  · rename_i hnl
    have hfl : loud cfg f = false := by simp [loud, hnl]
    split
    · rename_i htr
      split
      · rename_i hcond
        obtain ⟨aP, haP, hfr, hpc⟩ := process_recorded_audio_fields
          (recog (w.audio.audio_frames ++ [f]))
          { w.audio with
            audio_frames := w.audio.audio_frames ++ [f]
            processCalls := w.audio.processCalls ++ [w.audio.audio_frames ++ [f]] }
        rw [haP]
        apply worker_tail_inv
        refine ⟨rfl, by simp, ?_⟩
        dsimp only
        rw [hpc]
        intro seg hseg
        rcases List.mem_append.mp hseg with hseg | hseg
        · exact h3 seg hseg
        · rw [List.mem_singleton.mp hseg]
          have hsp : w.has_speech = true := hcond.2
          have hl2 : ∃ g ∈ w.audio.audio_frames ++ [f], loud cfg g = true := by
            rw [hsp] at h1
            obtain ⟨g, hg, hgl⟩ := by simpa using List.any_eq_true.mp h1.symm
            exact ⟨g, List.mem_append_left _ hg, hgl⟩
          by_cases hcase : (w.has_speech && w.silence_start.isNone) = true
          · have hss0 : effSilenceStart w f.time = some f.time := by
              simp only [effSilenceStart, hcase, if_true]
            apply segOK_of_suffix cfg _ f.time hl2
              (silentSuffixFrom_concat cfg _ f hfl)
            intro gl hgl
            rw [List.getLast?_concat] at hgl
            cases hgl
            have hd := hcond.1
            rw [hss0] at hd
            simpa [optVal] using hd
          · have hss0 : effSilenceStart w f.time = w.silence_start := by
              simp [effSilenceStart, hcase]
            cases hw : w.silence_start with
            | none =>
              rw [hss0, hw] at htr
              simp [truthy] at htr
            | some a =>
              obtain ⟨hsuf, _⟩ := h2 a (by simp [hw])
              apply segOK_of_suffix cfg _ a hl2
                (silentSuffixFrom_append cfg _ a f hsuf hfl)
              intro gl hgl
              rw [List.getLast?_concat] at hgl
              cases hgl
              have hd := hcond.1
              rw [hss0, hw] at hd
              simpa [optVal] using hd
      · apply worker_tail_inv
        exact workerInvCore_silent cfg w f hinv hfl
    · apply worker_tail_inv
      exact workerInvCore_silent cfg w f hinv hfl

/-- The worker invariant holds for a freshly started session. -/
theorem workerInv_init (cfg : AudioCfg) (t0 : ℚ) :
    WorkerInv cfg (initListening t0) := by
  refine ⟨rfl, ?_, ?_⟩
  · intro a ha
    simp [initListening] at ha
  · intro seg hseg
    simp [initListening] at hseg

/-- The whole capture loop preserves the worker invariant. -/
theorem worker_run_inv (cfg : AudioCfg) (recog : List AudioFrame → RecognitionResult)
    (fs : List AudioFrame) : ∀ w : WorkerState,
    WorkerInv cfg w → WorkerInv cfg (worker_run cfg recog w fs) := by
  induction fs with
  | nil => exact fun w h => h
  | cons f fs ih =>
    intro w h
    unfold worker_run
    split
    · rcases hstep : worker_step cfg recog w f with ⟨w', b⟩
      have hw' : WorkerInv cfg w' := by
        have := worker_step_inv cfg recog w f h
        rw [hstep] at this
        exact this
      cases b
      · exact ih w' hw'
      · exact hw'
    · exact h

/-- The inactivity tail does not change the emission trace. -/
theorem worker_tail_pc (cfg : AudioCfg) (t : ℚ) (a : AudioState) (hs : Bool)
    (ss : Option ℚ) :
    (worker_tail cfg t a hs ss).1.audio.processCalls = a.processCalls :=
  (worker_tail_fields cfg t a hs ss).2.1

/-- The inactivity tail does not change the frame buffer. -/
theorem worker_tail_frames (cfg : AudioCfg) (t : ℚ) (a : AudioState) (hs : Bool)
    (ss : Option ℚ) :
    (worker_tail cfg t a hs ss).1.audio.audio_frames = a.audio_frames :=
  (worker_tail_fields cfg t a hs ss).1

/-- One worker iteration emits the accumulated buffer exactly when the
frame is silent, speech had been heard, and the (possibly just-started)
silence run reaches `silence_threshold`. -/
theorem worker_step_emits_iff (cfg : AudioCfg)
    (recog : List AudioFrame → RecognitionResult) (w : WorkerState) (f : AudioFrame) :
    (worker_step cfg recog w f).1.audio.processCalls
        = w.audio.processCalls ++ [w.audio.audio_frames ++ [f]] ↔
      (volume f ≤ cfg.volume_threshold ∧ w.has_speech = true ∧
        truthy (effSilenceStart w f.time) = true ∧
        f.time - optVal (effSilenceStart w f.time) ≥ cfg.silence_threshold) := by
  unfold worker_step
  dsimp only
  split
  · rename_i hloud
    apply iff_of_false
    · rw [worker_tail_pc]
      simp
    · intro hc
      exact absurd hloud (not_lt.mpr hc.1)
  · rename_i hnl
    split
    · rename_i htr
      split
      · rename_i hcond
        obtain ⟨aP, haP, hfr, hpc⟩ := process_recorded_audio_fields
          (recog (w.audio.audio_frames ++ [f]))
          { w.audio with
            audio_frames := w.audio.audio_frames ++ [f]
            processCalls := w.audio.processCalls ++ [w.audio.audio_frames ++ [f]] }
        rw [haP]
        apply iff_of_true
        · rw [worker_tail_pc]
          dsimp only
          rw [hpc]
        · exact ⟨not_lt.mp hnl, hcond.2, htr, hcond.1⟩
      · rename_i hcond
        apply iff_of_false
        · rw [worker_tail_pc]
          simp
        · intro hc
          exact hcond ⟨hc.2.2.2, hc.2.1⟩
    · rename_i htr
      apply iff_of_false
      · rw [worker_tail_pc]
        simp
      · intro hc
        exact htr hc.2.2.1

/-- One worker iteration conserves frames: the flattening of all emitted
buffers followed by the residual buffer grows by exactly the processed
frame. -/
theorem worker_step_flatten (cfg : AudioCfg)
    (recog : List AudioFrame → RecognitionResult) (w : WorkerState) (f : AudioFrame) :
    (worker_step cfg recog w f).1.audio.processCalls.flatten
        ++ (worker_step cfg recog w f).1.audio.audio_frames
      = w.audio.processCalls.flatten ++ w.audio.audio_frames ++ [f] := by
  unfold worker_step
  dsimp only
  split
  · rw [worker_tail_pc, worker_tail_frames]
    dsimp only
    rw [List.append_assoc]
  · split
    · split
      · obtain ⟨aP, haP, hfr, hpc⟩ := process_recorded_audio_fields
          (recog (w.audio.audio_frames ++ [f]))
          { w.audio with
            audio_frames := w.audio.audio_frames ++ [f]
            processCalls := w.audio.processCalls ++ [w.audio.audio_frames ++ [f]] }
        rw [haP]
        rw [worker_tail_pc, worker_tail_frames]
        dsimp only
        rw [hpc]
        dsimp only
        simp [List.append_assoc]
      · rw [worker_tail_pc, worker_tail_frames]
        dsimp only
        rw [List.append_assoc]
    · rw [worker_tail_pc, worker_tail_frames]
      dsimp only
      rw [List.append_assoc]

/-- Over a whole run, the emitted buffers followed by the residual buffer
are exactly the processed prefix of the input stream: every frame is
accounted for once, so no accumulated frames are ever emitted twice. -/
theorem worker_run_flatten (cfg : AudioCfg)
    (recog : List AudioFrame → RecognitionResult) :
    ∀ (fs : List AudioFrame) (w : WorkerState),
    ∃ k, (worker_run cfg recog w fs).audio.processCalls.flatten
        ++ (worker_run cfg recog w fs).audio.audio_frames
      = w.audio.processCalls.flatten ++ w.audio.audio_frames ++ fs.take k := by
  intro fs
  induction fs with
  | nil =>
    intro w
    exact ⟨0, by simp [worker_run]⟩
  | cons f fs ih =>
    intro w
    unfold worker_run
    split
    · rcases hstep : worker_step cfg recog w f with ⟨w', b⟩
      have hj := worker_step_flatten cfg recog w f
      rw [hstep] at hj
      cases b
      · obtain ⟨k, hk⟩ := ih w'
        refine ⟨k + 1, ?_⟩
        rw [hk, hj, List.take_succ_cons]
        simp [List.append_assoc]
      · refine ⟨1, ?_⟩
        rw [hj]
        simp
    · exact ⟨0, by simp⟩

/-- Claim C4: the recording loop emits a SpeechSegment iff speech was
detected and then confirmed silence reached `silence_threshold`, and never
emits the same accumulated frames twice.  Bundled as: (1) the worker
invariant holds for a fresh session; (2) every iteration preserves it;
(3) an iteration hands the accumulated buffer to `_process_recorded_audio`
iff the frame is silent, `has_speech` is set (equivalently, by the
invariant, some buffered frame exceeded `volume_threshold`) and the
silence run is at least `silence_threshold` long; (4) in every run every
emitted segment contains a frame that exceeded the threshold followed by a
closing silent run of length ≥ `silence_threshold`; (5) over every run the
emitted segments followed by the residual buffer partition the processed
input prefix, so no frame is emitted twice. -/
theorem speech_segment_emission_characterization :
    (∀ (cfg : AudioCfg) (t0 : ℚ), WorkerInv cfg (initListening t0)) ∧
    (∀ (cfg : AudioCfg) (recog : List AudioFrame → RecognitionResult)
        (w : WorkerState) (f : AudioFrame),
      WorkerInv cfg w → WorkerInv cfg (worker_step cfg recog w f).1) ∧
    (∀ (cfg : AudioCfg) (recog : List AudioFrame → RecognitionResult)
        (w : WorkerState) (f : AudioFrame),
      (worker_step cfg recog w f).1.audio.processCalls
          = w.audio.processCalls ++ [w.audio.audio_frames ++ [f]] ↔
        (volume f ≤ cfg.volume_threshold ∧ w.has_speech = true ∧
          truthy (effSilenceStart w f.time) = true ∧
          f.time - optVal (effSilenceStart w f.time) ≥ cfg.silence_threshold)) ∧
    (∀ (cfg : AudioCfg) (recog : List AudioFrame → RecognitionResult)
        (w : WorkerState) (fs : List AudioFrame),
      WorkerInv cfg w →
      ∀ seg ∈ (worker_run cfg recog w fs).audio.processCalls, SegOK cfg seg) ∧
    ∀ (cfg : AudioCfg) (recog : List AudioFrame → RecognitionResult)
        (w : WorkerState) (fs : List AudioFrame),
      ∃ k, (worker_run cfg recog w fs).audio.processCalls.flatten
          ++ (worker_run cfg recog w fs).audio.audio_frames
        = w.audio.processCalls.flatten ++ w.audio.audio_frames ++ fs.take k :=
  ⟨workerInv_init, worker_step_inv, worker_step_emits_iff,
    fun cfg recog w fs h => (worker_run_inv cfg recog fs w h).2.2,
    fun cfg recog w fs => worker_run_flatten cfg recog fs w⟩

/-- Witness for C4 at concrete inputs: the invariant is preserved across a
concrete speech frame, and in the concrete scenario run every emitted
segment is well-formed. -/
theorem speech_segment_emission_characterization_witness :
    WorkerInv defaultAudioCfg
        (worker_step defaultAudioCfg demoRecog (initListening 1) (loudFrame 2)).1 ∧
    ∀ seg ∈ (worker_run defaultAudioCfg demoRecog (initListening 1)
        scenarioFrames).audio.processCalls, SegOK defaultAudioCfg seg :=
  ⟨speech_segment_emission_characterization.2.1 defaultAudioCfg demoRecog
      (initListening 1) (loudFrame 2) (workerInv_init defaultAudioCfg 1),
    speech_segment_emission_characterization.2.2.2.1 defaultAudioCfg demoRecog
      (initListening 1) scenarioFrames (workerInv_init defaultAudioCfg 1)⟩

end Transneft
